import Mathlib

/-!
Shallow embedding of the sensor discovery and merge engine of the
Temperature-Exporter (cmd/temperature-exporter/main.go), together with
proofs of the specification claims about it.

Filesystem access (`os.ReadDir`, `os.Open`+`bufio.Scanner`, `os.Stat`) is
modelled by an explicit `FS` record; the external `sensors -j` invocation is
modelled by an optional already-unmarshalled JSON object handed to `Collect`.
Floating point values are modelled by `ℚ` (the code only multiplies a parsed
reading by the constant factor 0.001 and copies CLI values through).
-/

/-- Character-list helper: does the first list lead the second? -/
def charsPre : List Char → List Char → Bool
  | [], _ => true
  | _ :: _, [] => false
  | p :: ps, c :: cs => p == c && charsPre ps cs

/-- Model of `strings.HasPrefix(s, pre)`. -/
def strStarts (s pre : String) : Bool := charsPre pre.toList s.toList

/-- Model of `strings.HasSuffix(s, suf)`. -/
def strEnds (s suf : String) : Bool := charsPre suf.toList.reverse s.toList.reverse

/-- Dropping the first `n` characters of a string (the effect of
`strings.TrimPrefix` once the prefix is known to be present). -/
def strDrop (s : String) (n : ℕ) : String := ⟨s.toList.drop n⟩

/-- Dropping the last `n` characters of a string (the effect of
`strings.TrimSuffix` once the suffix is known to be present). -/
def strDropRight (s : String) (n : ℕ) : String := ⟨s.toList.take (s.toList.length - n)⟩

/-- Model of `strings.TrimSpace`: remove leading and trailing whitespace. -/
def trimSpace (s : String) : String :=
  ⟨((s.toList.dropWhile Char.isWhitespace).reverse.dropWhile Char.isWhitespace).reverse⟩

/-- One entry of a directory listing, as returned by `os.ReadDir`. -/
structure DirEnt where
  name : String
  isDir : Bool
deriving DecidableEq

/-- The filesystem as the program observes it.
`readDir p = none` models a failing `os.ReadDir(p)`;
`fileLines p = none` models `os.Open(p)` failing (not found / permission) or a
scanner I/O error, while `some ls` gives the file's lines (`some []` is an
empty file, in which no line appears before EOF);
`stat p` models `os.Stat(p)` succeeding. -/
structure FS where
  readDir : String → Option (List DirEnt)
  fileLines : String → Option (List String)
  stat : String → Bool

/-- The function `readFirstLine` from main.go: open the file, scan the first line and trim
it; fails when the file cannot be opened, the scanner errors, or the file is
empty (no line before EOF). A readable file whose first line exists returns
that line trimmed — even when the trimmed result is the empty string. -/
def readFirstLine (fs : FS) (path : String) : Option String :=
  match fs.fileLines path with
  | none => none
  | some [] => none
  | some (l :: _) => some (trimSpace l)

/-- The struct `sensorReading` from main.go: one discovered descriptor; `path` is the
`temp*_input` file to be read at scrape time, `factor` the multiplier
converting the raw unit to degrees Celsius. -/
structure sensorReading where
  chip : String
  name : String
  label : String
  path : String
  factor : ℚ
deriving DecidableEq

/-- Chip-name resolution in `discoverSensors`: the content of the chip's
`name` file when readable and non-empty, else the directory's own name. -/
def chipNameOf (fs : FS) (basePath dirName : String) : String :=
  match readFirstLine fs (basePath ++ "/" ++ dirName ++ "/name") with
  | some n => if n ≠ "" then n else dirName
  | none => dirName

/-- The file-name test of the inner loop of `discoverSensors`:
`strings.HasPrefix(fname, "temp") && strings.HasSuffix(fname, "_input")`. -/
def hwmonTempMatch (fname : String) : Bool :=
  strStarts fname "temp" && strEnds fname "_input"

/-- Label resolution in `discoverSensors` for index `idx`: the first line of
`temp<idx>_label` when that read succeeds, else the first line of
`temp<idx>_type` when that read succeeds, else the empty string. -/
def hwmonLabel (fs : FS) (chipDir idx : String) : String :=
  match readFirstLine fs (chipDir ++ "/temp" ++ idx ++ "_label") with
  | some l => l
  | none =>
    match readFirstLine fs (chipDir ++ "/temp" ++ idx ++ "_type") with
    | some t => t
    | none => ""

/-- Build the descriptor `discoverSensors` appends for a matched file name:
the index is the file name with the leading `temp` and trailing `_input`
stripped, the sensor name is set to the chip name, the factor is 0.001. -/
def mkHwmonSensor (fs : FS) (chipDir chipName fname : String) : sensorReading :=
  let idx := strDropRight (strDrop fname 4) 6
  { chip := chipName
    name := chipName
    label := hwmonLabel fs chipDir idx
    path := chipDir ++ "/" ++ fname
    factor := (1 / 1000 : ℚ) }

/-- The per-chip part of `discoverSensors`: resolve the chip name, list the
chip directory (an unlistable chip is skipped entirely), and emit one
descriptor per file name matching `temp*_input`. -/
def hwmonChipSensors (fs : FS) (basePath dirName : String) : List sensorReading :=
  let chipDir := basePath ++ "/" ++ dirName
  let chipName := chipNameOf fs basePath dirName
  match fs.readDir chipDir with
  | none => []
  | some files =>
    files.flatMap fun f =>
      if hwmonTempMatch f.name then [mkHwmonSensor fs chipDir chipName f.name] else []

/-- The function `discoverSensors` from main.go: list the base path (failure is returned to
the caller with zero sensors), then walk every subdirectory as a chip. -/
def discoverSensors (fs : FS) (basePath : String) : Option (List sensorReading) :=
  (fs.readDir basePath).map fun entries =>
    entries.flatMap fun e =>
      if e.isDir then hwmonChipSensors fs basePath e.name else []

/-- The function `discoverThermalSensors` from main.go: list the thermal base, keep the
`thermal_zone*` subdirectories, read the optional `type` file (empty name on
failure), and emit a descriptor only when the zone's `temp` file stats. -/
def discoverThermalSensors (fs : FS) (thermalBase : String) : Option (List sensorReading) :=
  (fs.readDir thermalBase).map fun entries =>
    entries.flatMap fun e =>
      if e.isDir && strStarts e.name "thermal_zone" then
        let zoneDir := thermalBase ++ "/" ++ e.name
        let ttype :=
          match readFirstLine fs (zoneDir ++ "/type") with
          | some t => t
          | none => ""
        let tempPath := zoneDir ++ "/temp"
        if fs.stat tempPath then
          [{ chip := "thermal", name := ttype, label := e.name,
             path := tempPath, factor := (1 / 1000 : ℚ) }]
        else []
      else []

/-- The struct `cliReading` from main.go: a reading of the `sensors -j` backend, already
expressed in degrees Celsius. -/
structure cliReading where
  chip : String
  name : String
  label : String
  value : ℚ
deriving DecidableEq

/-- Generic JSON value as produced by `json.Unmarshal` into
`map[string]interface{}`: numbers, strings, nested objects, and everything
else (booleans, null, arrays) which the walker skips. -/
inductive JVal where
  | num : ℚ → JVal
  | str : String → JVal
  | obj : List (String × JVal) → JVal
  | other : JVal

/-- The regex `^temp(\d+)_input$` of `discoverSensorsCLI`: return the captured
non-empty digit sequence on a full match. -/
def tempInputIndex? (k : String) : Option String :=
  if strStarts k "temp" && strEnds k "_input" then
    let mid := strDropRight (strDrop k 4) 6
    if mid ≠ "" && mid.toList.all Char.isDigit then some mid else none
  else none

/-- The value switch of `discoverSensorsCLI`: only numeric JSON values are
accepted, every other shape is skipped. -/
def cliValue? : JVal → Option ℚ
  | .num f => some f
  | _ => none

/-- The sibling-label lookup of `discoverSensorsCLI`: `temp<idx>_label` in the
same section, used only when present and string-typed. -/
def cliLabelOf (sm : List (String × JVal)) (idx : String) : String :=
  match sm.lookup ("temp" ++ idx ++ "_label") with
  | some (.str s) => s
  | _ => ""

/-- The JSON walk of `discoverSensorsCLI` from main.go, applied to an already
unmarshalled root object: two nested levels of objects, then fields matching
`temp<N>_input` with a numeric value yield one reading each. -/
def discoverSensorsCLI (root : List (String × JVal)) : List cliReading :=
  root.flatMap fun cv =>
    match cv.2 with
    | .obj m =>
      m.flatMap fun sv =>
        match sv.2 with
        | .obj sm =>
          sm.flatMap fun kv =>
            match tempInputIndex? kv.1 with
            | none => []
            | some idx =>
              match cliValue? kv.2 with
              | none => []
              | some f => [{ chip := cv.1, name := sv.1, label := cliLabelOf sm idx, value := f }]
        | _ => []
    | _ => []

/-- Value of a non-empty digit string (helper of the decimal-number model). -/
def digitsToNat (cs : List Char) : ℕ :=
  cs.foldl (fun n c => n * 10 + (c.toNat - 48)) 0

/-- Model of `strconv.ParseFloat` restricted to the plain decimal notation the
kernel pseudo-files and the scrape loop actually use: an optional sign, then
digits with at most one decimal point (at least one digit overall). Any other
content is non-numeric and yields `none`. -/
def parseDecimal? (s : String) : Option ℚ :=
  let withSign : List Char → Option ℚ := fun cs =>
    let ip := cs.takeWhile (fun c => c ≠ '.')
    let rest := cs.dropWhile (fun c => c ≠ '.')
    match rest with
    | [] =>
      if ip ≠ [] && ip.all Char.isDigit then some (digitsToNat ip) else none
    | '.' :: fp =>
      if (ip ≠ [] || fp ≠ []) && ip.all Char.isDigit && fp.all Char.isDigit then
        some ((digitsToNat ip : ℚ) + (digitsToNat fp : ℚ) / (10 : ℚ) ^ fp.length)
      else none
    | _ => none
  match s.toList with
  | '-' :: cs => (withSign cs).map (fun q => -q)
  | '+' :: cs => withSign cs
  | cs => withSign cs

/-- The identity of a time series: the (chip, sensor, label) triple used as
the gauge vector's label values. -/
abbrev Key := String × String × String

/-- The gauge vector's children: one (key, value) pair per label combination
that has been set since the last `Reset`. -/
abbrev GaugeSet := List (Key × ℚ)

/-- Model of `GaugeVec.WithLabelValues(...).Set(v)`: replace the value of the child
with this label combination, or append a fresh child. -/
def upsert : GaugeSet → Key → ℚ → GaugeSet
  | [], k, v => [(k, v)]
  | p :: m, k, v => if p.1 = k then (k, v) :: m else p :: upsert m k v

/-- Reading a child's current value out of the gauge set. -/
def lookupKey : GaugeSet → Key → Option ℚ
  | [], _ => none
  | p :: m, k => if p.1 = k then some p.2 else lookupKey m k

/-- The label combinations currently present in the gauge set. -/
def keysOf (m : GaugeSet) : List Key := m.map (fun p => p.1)

/-- Model of `GaugeVec.Reset()`: delete every child. -/
def gaugeReset (_ : GaugeSet) : GaugeSet := []

/-- One iteration of the scrape loop of `collector.Collect`: read the first
line of the descriptor's input file (skip the descriptor on failure), parse it
as a number (skip on failure), multiply by the factor and set the gauge. -/
def processDescriptor (fs : FS) (m : GaugeSet) (s : sensorReading) : GaugeSet :=
  match readFirstLine fs s.path with
  | none => m
  | some raw =>
    match parseDecimal? (trimSpace raw) with
    | none => m
    | some v => upsert m (s.chip, s.name, s.label) (v * s.factor)

/-- The (key, value) pair a single descriptor contributes to the scrape, empty
when its read or parse fails. -/
def descContribution (fs : FS) (s : sensorReading) : List (Key × ℚ) :=
  match readFirstLine fs s.path with
  | none => []
  | some raw =>
    match parseDecimal? (trimSpace raw) with
    | none => []
    | some v => [((s.chip, s.name, s.label), v * s.factor)]

/-- The configuration fields of `collector` that steer a scrape. -/
structure CollectorCfg where
  basePath : String
  thermalPath : String
  enableHwmon : Bool
  enableThermal : Bool
  enableSensorsCli : Bool

/-- External world of one `Collect` invocation: the filesystem, the outcome of
`sensors -j` (`none` when executing the command or unmarshalling its output
fails, otherwise the root JSON object), and the measured wall-clock scrape
duration in nanoseconds (non-negative, the monotonic clock never runs
backwards). -/
structure CollectInput where
  fs : FS
  cli : Option (List (String × JVal))
  elapsedNanos : ℕ

instance : Inhabited CollectInput :=
  ⟨{ fs := { readDir := fun _ => none, fileLines := fun _ => none, stat := fun _ => false }
     cli := none
     elapsedNanos := 0 }⟩

/-- What one `Collect` invocation produces: the published gauge set, the
scrape-duration gauge in seconds, which discovery errors were logged, and the
new value of the `sensorsCliWarned` package variable. -/
structure ScrapeResult where
  gauges : GaugeSet
  scrapeSeconds : ℚ
  hwmonLogged : Bool
  thermalLogged : Bool
  cliLogged : Bool
  warnedAfter : Bool

/-- The descriptors a scrape works on: hwmon descriptors when enabled (zero on
discovery failure), followed by thermal descriptors when enabled (same fault
tolerance) — the append order of `Collect`. -/
def discoveredDescriptors (c : CollectorCfg) (fs : FS) : List sensorReading :=
  (if c.enableHwmon then (discoverSensors fs c.basePath).getD [] else [])
    ++ (if c.enableThermal then (discoverThermalSensors fs c.thermalPath).getD [] else [])

/-- The method `collector.Collect` from main.go as a state transition: discover, reset
the gauge vector, process every descriptor, then merge the CLI readings when
enabled (on CLI failure, log only if not yet warned and set the warned flag),
and finally set the scrape-duration gauge. `prev` is the gauge state left by
the previous scrape, `warned` the current `sensorsCliWarned` value. -/
def Collect (c : CollectorCfg) (prev : GaugeSet) (warned : Bool) (inp : CollectInput) :
    ScrapeResult :=
  let hwmonErr := c.enableHwmon && (discoverSensors inp.fs c.basePath).isNone
  let thermalErr := c.enableThermal && (discoverThermalSensors inp.fs c.thermalPath).isNone
  let sensors := discoveredDescriptors c inp.fs
  let g0 := gaugeReset prev
  let g1 := sensors.foldl (processDescriptor inp.fs) g0
  let secs := (inp.elapsedNanos : ℚ) / 1000000000
  if c.enableSensorsCli then
    match inp.cli with
    | some root =>
      let readings := discoverSensorsCLI root
      let g2 := readings.foldl (fun m r => upsert m (r.chip, r.name, r.label) r.value) g1
      { gauges := g2, scrapeSeconds := secs, hwmonLogged := hwmonErr,
        thermalLogged := thermalErr, cliLogged := false, warnedAfter := warned }
    | none =>
      { gauges := g1, scrapeSeconds := secs, hwmonLogged := hwmonErr,
        thermalLogged := thermalErr, cliLogged := !warned, warnedAfter := true }
  else
    { gauges := g1, scrapeSeconds := secs, hwmonLogged := hwmonErr,
      thermalLogged := thermalErr, cliLogged := false, warnedAfter := warned }

/-- The (key, value) pairs the CLI backend merges into the gauge set: one per
reading when the backend is enabled and its invocation succeeded. -/
def cliSettings (c : CollectorCfg) (inp : CollectInput) : List (Key × ℚ) :=
  if c.enableSensorsCli then
    match inp.cli with
    | some root => (discoverSensorsCLI root).map (fun r => ((r.chip, r.name, r.label), r.value))
    | none => []
  else []

/-- Every (key, value) pair set during one scrape, in setting order: the
successful descriptor reads, then the CLI readings. -/
def scrapeSettings (c : CollectorCfg) (inp : CollectInput) : List (Key × ℚ) :=
  (discoveredDescriptors c inp.fs).flatMap (descContribution inp.fs) ++ cliSettings c inp

/-- The `sensorsCliWarned` state machine over a sequence of scrapes: run
`Collect` on each input in turn, threading the warned flag, and record for
each scrape whether it logged a CLI-backend error. -/
def runScrapes (c : CollectorCfg) : Bool → List CollectInput → List Bool
  | _, [] => []
  | warned, inp :: rest =>
    let r := Collect c [] warned inp
    r.cliLogged :: runScrapes c r.warnedAfter rest

/-- Folding a list of (key, value) settings into a gauge set, one upsert per
setting; the shape shared by the descriptor loop and the CLI loop. -/
def applyAll (m0 : GaugeSet) (l : List (Key × ℚ)) : GaugeSet :=
  l.foldl (fun m p => upsert m p.1 p.2) m0

/-- The value of the last setting with key `k` in a settings list, if any. -/
def lastVal : List (Key × ℚ) → Key → Option ℚ
  | [], _ => none
  | p :: l, k =>
    match lastVal l k with
    | some v => some v
    | none => if p.1 = k then some p.2 else none

/-- A one-file filesystem whose only file holds a single whitespace line. -/
def blankLineFS : FS :=
  { readDir := fun _ => none
    fileLines := fun p => if p = "f" then some ["  "] else none
    stat := fun _ => false }

/-- A chip directory carrying both a label file and a type file for index 3,
a second one carrying only a type file, and a third carrying neither. -/
def labelFS : FS :=
  { readDir := fun _ => none
    fileLines := fun p =>
      if p = "cd/temp3_label" then some ["Tctl"]
      else if p = "cd/temp3_type" then some ["SHOULD-NOT-APPEAR"]
      else if p = "ce/temp3_type" then some ["Tdie"]
      else none
    stat := fun _ => false }

/-- A variant of `labelFS` with different `temp3_type` content. -/
def labelFS2 : FS :=
  { readDir := fun _ => none
    fileLines := fun p =>
      if p = "cd/temp3_label" then some ["Tctl"]
      else if p = "cd/temp3_type" then some ["OTHER"]
      else none
    stat := fun _ => false }

/-- A hwmon tree whose only chip exposes a file named `tempx_input`: the part
between `temp` and `_input` is not a digit sequence. -/
def nonDigitFS : FS :=
  { readDir := fun p =>
      if p = "hw" then some [⟨"hwmon0", true⟩]
      else if p = "hw/hwmon0" then some [⟨"tempx_input", false⟩]
      else none
    fileLines := fun _ => none
    stat := fun _ => false }

/-- The CLI JSON document of the claim, already unmarshalled:
`{"coretemp-isa-0000":{"Core 0":{"temp2_input": 39.0, "temp2_label":"Core 0"}}}`. -/
def c8root : List (String × JVal) :=
  [("coretemp-isa-0000", .obj [("Core 0", .obj
      [("temp2_input", .num 39), ("temp2_label", .str "Core 0")])])]

/-- A hwmon tree whose only chip exposes two input files, neither carrying a
label or a type file, both readable and numeric. -/
def twoInputsFS : FS :=
  { readDir := fun p =>
      if p = "hw" then some [⟨"hwmon0", true⟩]
      else if p = "hw/hwmon0" then some [⟨"temp1_input", false⟩, ⟨"temp2_input", false⟩]
      else none
    fileLines := fun p =>
      if p = "hw/hwmon0/temp1_input" then some ["39625"]
      else if p = "hw/hwmon0/temp2_input" then some ["40000"]
      else none
    stat := fun _ => false }

/-- A configuration with only the hwmon backend enabled, over base `hw`. -/
def hwOnlyCfg : CollectorCfg :=
  { basePath := "hw", thermalPath := "th", enableHwmon := true,
    enableThermal := false, enableSensorsCli := false }

/-- A hwmon tree with one chip named `k10temp` (via its `name` file), one
input file reading 10000 millidegrees and a label file saying `Tctl`. -/
def c4fs : FS :=
  { readDir := fun p =>
      if p = "hw" then some [⟨"hwmon0", true⟩]
      else if p = "hw/hwmon0" then some [⟨"temp1_input", false⟩]
      else none
    fileLines := fun p =>
      if p = "hw/hwmon0/name" then some ["k10temp"]
      else if p = "hw/hwmon0/temp1_input" then some ["10000"]
      else if p = "hw/hwmon0/temp1_label" then some ["Tctl"]
      else none
    stat := fun _ => false }

/-- A CLI JSON document carrying the same (chip, sensor, label) key as the
hwmon sensor of `c4fs`, with a different value. -/
def c4root : List (String × JVal) :=
  [("k10temp", .obj [("k10temp", .obj
      [("temp1_input", .num 39), ("temp1_label", .str "Tctl")])])]

/-- Hwmon and CLI backends enabled, thermal disabled, over base `hw`. -/
def hwCliCfg : CollectorCfg :=
  { basePath := "hw", thermalPath := "th", enableHwmon := true,
    enableThermal := false, enableSensorsCli := true }

/-- A tree whose hwmon base path `badhw` cannot be listed but whose thermal
base holds one populated zone. -/
def c6fs : FS :=
  { readDir := fun p =>
      if p = "th" then some [⟨"thermal_zone0", true⟩]
      else none
    fileLines := fun p =>
      if p = "th/thermal_zone0/type" then some ["cpu"]
      else if p = "th/thermal_zone0/temp" then some ["45000"]
      else none
    stat := fun p => p = "th/thermal_zone0/temp" }

/-- Hwmon (over the unlistable base `badhw`) and thermal enabled, CLI off. -/
def c6cfg : CollectorCfg :=
  { basePath := "badhw", thermalPath := "th", enableHwmon := true,
    enableThermal := true, enableSensorsCli := false }

/-- A hwmon tree with a single readable numeric input file. -/
def c7fs : FS :=
  { readDir := fun p =>
      if p = "hw" then some [⟨"hwmon0", true⟩]
      else if p = "hw/hwmon0" then some [⟨"temp1_input", false⟩]
      else none
    fileLines := fun p =>
      if p = "hw/hwmon0/temp1_input" then some ["39625"]
      else none
    stat := fun _ => false }

/-- Only the CLI backend enabled. -/
def cliOnlyCfg : CollectorCfg :=
  { basePath := "hw", thermalPath := "th", enableHwmon := false,
    enableThermal := false, enableSensorsCli := true }

theorem lookupKey_upsert_self (m : GaugeSet) (k : Key) (v : ℚ) :
    lookupKey (upsert m k v) k = some v := by
  induction m with
  | nil => simp [upsert, lookupKey]
  | cons p m ih =>
    by_cases h : p.1 = k
    · simp [upsert, h, lookupKey]
    · simp [upsert, h, lookupKey, ih]

theorem lookupKey_upsert_ne (m : GaugeSet) (k k' : Key) (v : ℚ) (h : k' ≠ k) :
    lookupKey (upsert m k v) k' = lookupKey m k' := by
  induction m with
  | nil => simp [upsert, lookupKey, Ne.symm h]
  | cons p m ih =>
    by_cases hp : p.1 = k
    · subst hp
      simp [upsert, lookupKey, Ne.symm h]
    · by_cases hp' : p.1 = k'
      · simp [upsert, hp, lookupKey, hp', h]
      · simp [upsert, hp, lookupKey, hp', ih]

theorem keysOf_upsert (m : GaugeSet) (k : Key) (v : ℚ) :
    keysOf (upsert m k v) = if k ∈ keysOf m then keysOf m else keysOf m ++ [k] := by
  induction m with
  | nil => simp [upsert, keysOf]
  | cons p m ih =>
    by_cases hp : p.1 = k
    · subst hp
      simp [upsert, keysOf]
    · simp only [upsert, hp, if_false, keysOf, List.map_cons] at ih ⊢
      rw [ih]
      by_cases hk : k ∈ m.map (fun p => p.1)
      · simp [hk, Ne.symm hp]
      · simp [hk, Ne.symm hp]

theorem mem_keysOf_upsert (m : GaugeSet) (k k' : Key) (v : ℚ) :
    k' ∈ keysOf (upsert m k v) ↔ k' ∈ keysOf m ∨ k' = k := by
  rw [keysOf_upsert]
  by_cases hk : k ∈ keysOf m
  · simp only [hk, if_true]
    constructor
    · exact fun h => Or.inl h
    · rintro (h | rfl)
      · exact h
      · exact hk
  · simp [hk]

theorem nodup_keysOf_upsert (m : GaugeSet) (k : Key) (v : ℚ)
    (h : (keysOf m).Nodup) : (keysOf (upsert m k v)).Nodup := by
  rw [keysOf_upsert]
  by_cases hk : k ∈ keysOf m
  · simpa [hk]
  · simp [hk, List.nodup_append, h]

theorem applyAll_append (m0 : GaugeSet) (a b : List (Key × ℚ)) :
    applyAll m0 (a ++ b) = applyAll (applyAll m0 a) b := by
  simp [applyAll, List.foldl_append]

theorem lastVal_append (a b : List (Key × ℚ)) (k : Key) :
    lastVal (a ++ b) k =
      match lastVal b k with
      | some v => some v
      | none => lastVal a k := by
  induction a with
  | nil =>
    cases h : lastVal b k <;> simp [lastVal, h]
  | cons p a ih =>
    rw [List.cons_append]
    simp only [lastVal]
    rw [ih]
    cases hb : lastVal b k <;> cases ha : lastVal a k <;> simp [lastVal, ha, hb]

theorem lookupKey_applyAll (l : List (Key × ℚ)) (m0 : GaugeSet) (k : Key) :
    lookupKey (applyAll m0 l) k =
      match lastVal l k with
      | some v => some v
      | none => lookupKey m0 k := by
  induction l generalizing m0 with
  | nil => simp [applyAll, lastVal]
  | cons p l ih =>
    have step : applyAll m0 (p :: l) = applyAll (upsert m0 p.1 p.2) l := rfl
    rw [step, ih]
    cases h : lastVal l k with
    | some v => simp [lastVal, h]
    | none =>
      by_cases hp : p.1 = k
      · subst hp
        simp [lastVal, h, lookupKey_upsert_self]
      · simp [lastVal, h, hp, lookupKey_upsert_ne m0 p.1 k p.2 (Ne.symm hp)]

theorem mem_keysOf_applyAll (l : List (Key × ℚ)) (m0 : GaugeSet) (k : Key) :
    k ∈ keysOf (applyAll m0 l) ↔ k ∈ keysOf m0 ∨ k ∈ l.map (fun p => p.1) := by
  induction l generalizing m0 with
  | nil => simp [applyAll]
  | cons p l ih =>
    have step : applyAll m0 (p :: l) = applyAll (upsert m0 p.1 p.2) l := rfl
    rw [step]
    simp [ih, mem_keysOf_upsert]
    tauto

theorem nodup_keysOf_applyAll (l : List (Key × ℚ)) (m0 : GaugeSet)
    (h : (keysOf m0).Nodup) : (keysOf (applyAll m0 l)).Nodup := by
  induction l generalizing m0 with
  | nil => simpa [applyAll]
  | cons p l ih =>
    exact ih _ (nodup_keysOf_upsert m0 p.1 p.2 h)

theorem processDescriptor_eq_applyAll (fs : FS) (m : GaugeSet) (s : sensorReading) :
    processDescriptor fs m s = applyAll m (descContribution fs s) := by
  unfold processDescriptor descContribution
  cases readFirstLine fs s.path with
  | none => rfl
  | some raw =>
    dsimp only
    cases parseDecimal? (trimSpace raw) with
    | none => rfl
    | some v => rfl

theorem foldl_processDescriptor_eq (fs : FS) (ds : List sensorReading) (m0 : GaugeSet) :
    ds.foldl (processDescriptor fs) m0 = applyAll m0 (ds.flatMap (descContribution fs)) := by
  induction ds generalizing m0 with
  | nil => rfl
  | cons s ds ih =>
    simp only [List.foldl_cons, List.flatMap_cons, applyAll_append]
    rw [ih, processDescriptor_eq_applyAll]

theorem foldl_cli_eq_applyAll (rs : List cliReading) (m0 : GaugeSet) :
    rs.foldl (fun m r => upsert m (r.chip, r.name, r.label) r.value) m0 =
      applyAll m0 (rs.map (fun r => ((r.chip, r.name, r.label), r.value))) := by
  induction rs generalizing m0 with
  | nil => rfl
  | cons r rs ih =>
    simp only [List.foldl_cons, List.map_cons]
    exact ih _

theorem lastVal_eq_none (l : List (Key × ℚ)) (k : Key)
    (h : ∀ q ∈ l, q.1 ≠ k) : lastVal l k = none := by
  induction l with
  | nil => rfl
  | cons p l ih =>
    have hp := h p (by simp)
    have : lastVal l k = none := ih (fun q hq => h q (by simp [hq]))
    simp [lastVal, this, hp]

theorem lastVal_of_all (l : List (Key × ℚ)) (k : Key) (v : ℚ)
    (hex : ∃ q ∈ l, q.1 = k) (hall : ∀ q ∈ l, q.1 = k → q.2 = v) :
    lastVal l k = some v := by
  induction l with
  | nil => simp at hex
  | cons p l ih =>
    by_cases htail : ∃ q ∈ l, q.1 = k
    · have := ih htail (fun q hq hk => hall q (by simp [hq]) hk)
      simp [lastVal, this]
    · have hnone : lastVal l k = none := by
        apply lastVal_eq_none
        intro q hq hk
        exact htail ⟨q, hq, hk⟩
      rcases hex with ⟨q, hq, hk⟩
      rcases List.mem_cons.mp hq with rfl | hq'
      · simp [lastVal, hnone, hk, hall q (by simp) hk]
      · exact absurd ⟨q, hq', hk⟩ htail

/-- The central decomposition: the gauge set a scrape publishes is the empty
set with every setting of the scrape upserted, in order. -/
theorem Collect_gauges (c : CollectorCfg) (prev : GaugeSet) (warned : Bool)
    (inp : CollectInput) :
    (Collect c prev warned inp).gauges = applyAll [] (scrapeSettings c inp) := by
  by_cases hc : c.enableSensorsCli
  · cases hcli : inp.cli with
    | none =>
      simp [Collect, scrapeSettings, cliSettings, gaugeReset, hc, hcli,
        foldl_processDescriptor_eq]
    | some root =>
      simp [Collect, scrapeSettings, cliSettings, gaugeReset, hc, hcli,
        foldl_processDescriptor_eq, foldl_cli_eq_applyAll, applyAll_append]
  · simp [Collect, scrapeSettings, cliSettings, gaugeReset, hc,
      foldl_processDescriptor_eq]

theorem flatMap_if_singleton {α β : Type} (p : α → Bool) (g : α → β) (l : List α) :
    (l.flatMap fun x => if p x then [g x] else []) = (l.filter p).map g := by
  induction l with
  | nil => rfl
  | cons x l ih => by_cases h : p x <;> simp [h, ih]

theorem Collect_scrapeSeconds (c : CollectorCfg) (prev : GaugeSet) (warned : Bool)
    (inp : CollectInput) :
    (Collect c prev warned inp).scrapeSeconds = (inp.elapsedNanos : ℚ) / 1000000000 := by
  unfold Collect
  by_cases hc : c.enableSensorsCli <;> cases inp.cli <;> simp [hc]

theorem Collect_cliLogged (c : CollectorCfg) (prev : GaugeSet) (warned : Bool)
    (inp : CollectInput) :
    (Collect c prev warned inp).cliLogged = (c.enableSensorsCli && inp.cli.isNone && !warned) := by
  unfold Collect
  by_cases hc : c.enableSensorsCli <;> cases inp.cli <;> simp [hc]

theorem Collect_warnedAfter (c : CollectorCfg) (prev : GaugeSet) (warned : Bool)
    (inp : CollectInput) :
    (Collect c prev warned inp).warnedAfter = (warned || (c.enableSensorsCli && inp.cli.isNone)) := by
  unfold Collect
  by_cases hc : c.enableSensorsCli <;> cases inp.cli <;> simp [hc]

/-- C10: `readFirstLine` fails with an error exactly when the file cannot be
opened (or the scanner errors) or the file contains no line before EOF; for a
readable file whose first line consists only of whitespace it succeeds and
returns the empty string, so the error value alone cannot distinguish a blank
first line from an empty label. -/
theorem C10_readFirstLine_error_iff (fs : FS) (p : String) :
    (readFirstLine fs p = none ↔ fs.fileLines p = none ∨ fs.fileLines p = some [])
    ∧ (∀ l ls, fs.fileLines p = some (l :: ls) → trimSpace l = "" →
        readFirstLine fs p = some "") := by
  constructor
  · unfold readFirstLine
    cases h : fs.fileLines p with
    | none => simp
    | some ls => cases ls <;> simp
  · intro l ls h ht
    simp [readFirstLine, h, ht]

theorem C10_witness :
    readFirstLine blankLineFS "f" = some "" ∧
      (readFirstLine blankLineFS "g" = none ↔
        blankLineFS.fileLines "g" = none ∨ blankLineFS.fileLines "g" = some []) :=
  ⟨(C10_readFirstLine_error_iff blankLineFS "f").2 "  " [] (by decide) (by decide),
   (C10_readFirstLine_error_iff blankLineFS "g").1⟩

/-- C3: the resolved hwmon label follows the precedence label-file first, then
type-file, then empty, where a file counts as readable and non-empty exactly
when `readFirstLine` succeeds on it (it can be opened and contains a line
before EOF), and the type file is never consulted when the label file is
readable and non-empty: the result is then independent of the rest of the
filesystem, in particular of any `temp<N>_type` content. -/
theorem C3_hwmon_label_precedence (fs : FS) (chipDir idx : String) :
    (∀ l ls, fs.fileLines (chipDir ++ "/temp" ++ idx ++ "_label") = some (l :: ls) →
      hwmonLabel fs chipDir idx = trimSpace l)
    ∧ ((fs.fileLines (chipDir ++ "/temp" ++ idx ++ "_label") = none ∨
        fs.fileLines (chipDir ++ "/temp" ++ idx ++ "_label") = some []) →
       ∀ t ts, fs.fileLines (chipDir ++ "/temp" ++ idx ++ "_type") = some (t :: ts) →
         hwmonLabel fs chipDir idx = trimSpace t)
    ∧ ((fs.fileLines (chipDir ++ "/temp" ++ idx ++ "_label") = none ∨
        fs.fileLines (chipDir ++ "/temp" ++ idx ++ "_label") = some []) →
       (fs.fileLines (chipDir ++ "/temp" ++ idx ++ "_type") = none ∨
        fs.fileLines (chipDir ++ "/temp" ++ idx ++ "_type") = some []) →
       hwmonLabel fs chipDir idx = "")
    ∧ (∀ fs2 : FS, ∀ l ls,
        fs.fileLines (chipDir ++ "/temp" ++ idx ++ "_label") = some (l :: ls) →
        fs2.fileLines (chipDir ++ "/temp" ++ idx ++ "_label") = some (l :: ls) →
        hwmonLabel fs chipDir idx = hwmonLabel fs2 chipDir idx) := by
  refine ⟨?_, ?_, ?_, ?_⟩
  · intro l ls h
    simp [hwmonLabel, readFirstLine, h]
  · rintro (h | h) t ts ht <;> simp [hwmonLabel, readFirstLine, h, ht]
  · rintro (h | h) (h2 | h2) <;> simp [hwmonLabel, readFirstLine, h, h2]
  · intro fs2 l ls h h2
    simp [hwmonLabel, readFirstLine, h, h2]

theorem strAppend_left_cancel {a b c : String} (h : a ++ b = a ++ c) : b = c := by
  have hd := congrArg String.data h
  simp only [String.data_append] at hd
  exact String.ext (List.append_cancel_left hd)

theorem C3_witness :
    hwmonLabel labelFS "cd" "3" = "Tctl"
    ∧ hwmonLabel labelFS "ce" "3" = "Tdie"
    ∧ hwmonLabel labelFS "cf" "3" = ""
    ∧ hwmonLabel labelFS "cd" "3" = hwmonLabel labelFS2 "cd" "3" :=
  ⟨(C3_hwmon_label_precedence labelFS "cd" "3").1 "Tctl" [] (by decide),
   (C3_hwmon_label_precedence labelFS "ce" "3").2.1 (Or.inl (by decide)) "Tdie" [] (by decide),
   (C3_hwmon_label_precedence labelFS "cf" "3").2.2.1 (Or.inl (by decide)) (Or.inl (by decide)),
   (C3_hwmon_label_precedence labelFS "cd" "3").2.2.2 labelFS2 "Tctl" [] (by decide) (by decide)⟩

/-- C5 counterexample: the claim says a chip file whose part between `temp`
and `_input` is not a non-empty digit sequence produces no descriptor; but the
code only tests the prefix `temp` and the suffix `_input`, so the single file
`tempx_input` of this tree does produce a descriptor. -/
theorem C5_counterexample :
    nonDigitFS.readDir "hw/hwmon0" = some [⟨"tempx_input", false⟩]
    ∧ ((discoverSensors nonDigitFS "hw").getD []).map (fun s => s.path) =
        ["hw/hwmon0/tempx_input"] := by
  exact ⟨by decide, by decide⟩

/-- C5 amended: within each listable chip directory the hwmon discoverer
selects exactly those file names with prefix `temp` and suffix `_input` — the
digit-sequence requirement is not checked, so an empty or non-digit middle
also yields a descriptor — and each match contributes the descriptor built by
`mkHwmonSensor`, whose index is the middle substring. -/
theorem C5_amended_affix_selection (fs : FS) (basePath dirName : String)
    (files : List DirEnt)
    (h : fs.readDir (basePath ++ "/" ++ dirName) = some files) :
    hwmonChipSensors fs basePath dirName =
      (files.filter (fun f => hwmonTempMatch f.name)).map
        (fun f => mkHwmonSensor fs (basePath ++ "/" ++ dirName)
          (chipNameOf fs basePath dirName) f.name) := by
  simp only [hwmonChipSensors, h]
  exact flatMap_if_singleton _ _ files

theorem C5_witness :
    hwmonChipSensors nonDigitFS "hw" "hwmon0" =
      (([⟨"tempx_input", false⟩] : List DirEnt).filter (fun f => hwmonTempMatch f.name)).map
        (fun f => mkHwmonSensor nonDigitFS "hw/hwmon0"
          (chipNameOf nonDigitFS "hw" "hwmon0") f.name) :=
  C5_amended_affix_selection nonDigitFS "hw" "hwmon0" [⟨"tempx_input", false⟩] (by decide)

/-- C8: on the claim's CLI JSON document the walker produces exactly one
reading, keyed (chip `coretemp-isa-0000`, sensor `Core 0`, label `Core 0`),
with value 39 passed through without any scale factor. -/
theorem C8_cli_example :
    discoverSensorsCLI c8root =
      [{ chip := "coretemp-isa-0000", name := "Core 0", label := "Core 0", value := 39 }] := by
  rfl

/-- C2 counterexample: the claim says distinct `temp<N>_input` files under the
same chip always yield distinct time series in the merged output because the
file path distinguishes them; in this tree the chip has two distinct readable
input files, yet the published gauge set of the scrape holds a single key —
the file path is not part of the series key, and equal (chip, sensor, label)
triples collapse. -/
theorem C2_counterexample :
    ((discoverSensors twoInputsFS "hw").getD []).map (fun s => s.path) =
      ["hw/hwmon0/temp1_input", "hw/hwmon0/temp2_input"]
    ∧ keysOf (Collect hwOnlyCfg [] false
        { fs := twoInputsFS, cli := none, elapsedNanos := 0 }).gauges =
      [("hwmon0", "hwmon0", "")] := by
  exact ⟨by decide, by decide⟩

/-- C2 amended: every descriptor the hwmon discoverer emits has its sensor
name equal to the resolved chip label; distinct `temp<N>_input` files under
the same chip yield descriptors with distinct sourcePaths, but the published
series is keyed by (chip, sensor, label) only, so two such descriptors with
equal resolved labels share one key (the file path does not distinguish the
merged series — they stay distinct only when their labels differ). -/
theorem C2_amended_name_eq_chip_and_paths (fs : FS) (basePath : String) :
    (∀ s, s ∈ (discoverSensors fs basePath).getD [] → s.name = s.chip)
    ∧ (∀ chipDir chipName f1 f2,
        (mkHwmonSensor fs chipDir chipName f1).path =
          (mkHwmonSensor fs chipDir chipName f2).path → f1 = f2)
    ∧ (∀ chipDir chipName f1 f2,
        (mkHwmonSensor fs chipDir chipName f1).label =
          (mkHwmonSensor fs chipDir chipName f2).label →
        ((mkHwmonSensor fs chipDir chipName f1).chip,
          (mkHwmonSensor fs chipDir chipName f1).name,
          (mkHwmonSensor fs chipDir chipName f1).label) =
        ((mkHwmonSensor fs chipDir chipName f2).chip,
          (mkHwmonSensor fs chipDir chipName f2).name,
          (mkHwmonSensor fs chipDir chipName f2).label)) := by
  refine ⟨?_, ?_, ?_⟩
  · intro s hs
    cases hrd : fs.readDir basePath with
    | none => simp [discoverSensors, hrd] at hs
    | some entries =>
      simp only [discoverSensors, hrd, Option.map_some', Option.getD_some] at hs
      rcases List.mem_flatMap.mp hs with ⟨e, he, hse⟩
      by_cases hdir : e.isDir
      · rw [if_pos hdir] at hse
        simp only [hwmonChipSensors] at hse
        cases hcd : fs.readDir (basePath ++ "/" ++ e.name) with
        | none => rw [hcd] at hse; simp at hse
        | some files =>
          rw [hcd] at hse
          rcases List.mem_flatMap.mp hse with ⟨f, hf, hsf⟩
          by_cases hm : hwmonTempMatch f.name
          · rw [if_pos hm] at hsf
            simp only [List.mem_singleton] at hsf
            subst hsf
            rfl
          · rw [if_neg hm] at hsf; simp at hsf
      · rw [if_neg hdir] at hse; simp at hse
  · intro chipDir chipName f1 f2 hp
    simp only [mkHwmonSensor] at hp
    exact strAppend_left_cancel hp
  · intro chipDir chipName f1 f2 hl
    simp only [mkHwmonSensor] at hl ⊢
    rw [hl]

theorem C2_witness :
    ((mkHwmonSensor twoInputsFS "hw/hwmon0" "hwmon0" "temp1_input").chip,
      (mkHwmonSensor twoInputsFS "hw/hwmon0" "hwmon0" "temp1_input").name,
      (mkHwmonSensor twoInputsFS "hw/hwmon0" "hwmon0" "temp1_input").label) =
    ((mkHwmonSensor twoInputsFS "hw/hwmon0" "hwmon0" "temp2_input").chip,
      (mkHwmonSensor twoInputsFS "hw/hwmon0" "hwmon0" "temp2_input").name,
      (mkHwmonSensor twoInputsFS "hw/hwmon0" "hwmon0" "temp2_input").label) :=
  (C2_amended_name_eq_chip_and_paths twoInputsFS "hw").2.2 "hw/hwmon0" "hwmon0"
    "temp1_input" "temp2_input" (by decide)

/-- C1: after every scrape the published gauge set holds exactly one entry per
distinct (chip, sensor, label) key — its key list has no duplicates, and a key
is present exactly when some setting of this scrape bears it — and the gauge
state left by the previous scrape has no influence at all, so keys set in a
previous scrape but not observed now are absent. -/
theorem C1_published_set_per_scrape (c : CollectorCfg) (prev : GaugeSet)
    (warned : Bool) (inp : CollectInput) :
    (keysOf (Collect c prev warned inp).gauges).Nodup
    ∧ (∀ k, k ∈ keysOf (Collect c prev warned inp).gauges ↔
        k ∈ (scrapeSettings c inp).map (fun p => p.1))
    ∧ (Collect c prev warned inp).gauges = (Collect c [] warned inp).gauges := by
  refine ⟨?_, ?_, ?_⟩
  · rw [Collect_gauges]
    exact nodup_keysOf_applyAll _ _ (by simp [keysOf])
  · intro k
    rw [Collect_gauges]
    have := mem_keysOf_applyAll (scrapeSettings c inp) [] k
    simpa [keysOf] using this
  · rw [Collect_gauges, Collect_gauges]

/-- C4: when the CLI backend is enabled and its invocation succeeded, any CLI
reading that is the only CLI reading bearing its (chip, sensor, label) key
gives that key its final published value — in particular when a hwmon or
thermal descriptor set the very same key earlier in the scrape, the CLI value
wins because the CLI readings are merged last. -/
theorem C4_cli_value_wins (c : CollectorCfg) (prev : GaugeSet) (warned : Bool)
    (inp : CollectInput) (root : List (String × JVal)) (r : cliReading)
    (hc : c.enableSensorsCli = true) (hcli : inp.cli = some root)
    (hr : r ∈ discoverSensorsCLI root)
    (huniq : ∀ q ∈ discoverSensorsCLI root,
      (q.chip, q.name, q.label) = (r.chip, r.name, r.label) → q = r)
    (_hshare : (r.chip, r.name, r.label) ∈
      ((discoveredDescriptors c inp.fs).flatMap (descContribution inp.fs)).map
        (fun p => p.1)) :
    lookupKey (Collect c prev warned inp).gauges (r.chip, r.name, r.label) = some r.value := by
  rw [Collect_gauges, lookupKey_applyAll]
  have hcs : cliSettings c inp =
      (discoverSensorsCLI root).map (fun q => ((q.chip, q.name, q.label), q.value)) := by
    simp [cliSettings, hc, hcli]
  have hlast : lastVal (cliSettings c inp) (r.chip, r.name, r.label) = some r.value := by
    rw [hcs]
    apply lastVal_of_all
    · exact ⟨((r.chip, r.name, r.label), r.value), List.mem_map_of_mem _ hr, rfl⟩
    · intro q hq hk
      rcases List.mem_map.mp hq with ⟨q0, hq0, rfl⟩
      rw [huniq q0 hq0 hk]
  unfold scrapeSettings
  rw [lastVal_append, hlast]

theorem C4_witness :
    lookupKey (Collect hwCliCfg [] false
        { fs := c4fs, cli := some c4root, elapsedNanos := 0 }).gauges
      ("k10temp", "k10temp", "Tctl") = some 39 :=
  C4_cli_value_wins hwCliCfg [] false
    { fs := c4fs, cli := some c4root, elapsedNanos := 0 } c4root
    { chip := "k10temp", name := "k10temp", label := "Tctl", value := 39 }
    rfl rfl (by decide) (by decide) (by decide)

/-- C6: a scrape whose hwmon base path cannot be listed still completes: it
publishes exactly the gauge set the same scrape would publish with the hwmon
backend disabled (zero hwmon readings), every thermal contribution's key is
still published, and the scrape-duration gauge is set to a non-negative
value — as after every scrape, including ones with zero discovered sensors. -/
theorem C6_hwmon_unlistable_tolerated (c : CollectorCfg) (prev : GaugeSet)
    (warned : Bool) (inp : CollectInput)
    (hfail : inp.fs.readDir c.basePath = none) :
    (Collect c prev warned inp).gauges =
      (Collect { c with enableHwmon := false } prev warned inp).gauges
    ∧ (∀ k, k ∈ (((if c.enableThermal then
            (discoverThermalSensors inp.fs c.thermalPath).getD [] else []).flatMap
          (descContribution inp.fs)).map (fun p => p.1)) →
        k ∈ keysOf (Collect c prev warned inp).gauges)
    ∧ 0 ≤ (Collect c prev warned inp).scrapeSeconds := by
  have hds : discoverSensors inp.fs c.basePath = none := by
    simp [discoverSensors, hfail]
  have hdd : discoveredDescriptors c inp.fs =
      (if c.enableThermal then (discoverThermalSensors inp.fs c.thermalPath).getD [] else []) := by
    unfold discoveredDescriptors
    cases c.enableHwmon <;> simp [hds]
  refine ⟨?_, ?_, ?_⟩
  · rw [Collect_gauges, Collect_gauges]
    unfold scrapeSettings cliSettings discoveredDescriptors
    cases hc : c.enableHwmon <;> simp [hds]
  · intro k hk
    rw [Collect_gauges]
    rw [mem_keysOf_applyAll]
    right
    unfold scrapeSettings
    rw [hdd]
    simp only [List.map_append, List.mem_append]
    exact Or.inl hk
  · rw [Collect_scrapeSeconds]
    positivity

theorem C6_witness :
    (Collect c6cfg [] false { fs := c6fs, cli := none, elapsedNanos := 7 }).gauges =
      (Collect { c6cfg with enableHwmon := false } [] false
        { fs := c6fs, cli := none, elapsedNanos := 7 }).gauges
    ∧ ("thermal", "cpu", "thermal_zone0") ∈
        keysOf (Collect c6cfg [] false { fs := c6fs, cli := none, elapsedNanos := 7 }).gauges
    ∧ 0 ≤ (Collect c6cfg [] false { fs := c6fs, cli := none, elapsedNanos := 7 }).scrapeSeconds :=
  ⟨(C6_hwmon_unlistable_tolerated c6cfg [] false _ (by decide)).1,
   (C6_hwmon_unlistable_tolerated c6cfg [] false _ (by decide)).2.1
      ("thermal", "cpu", "thermal_zone0") (by decide),
   (C6_hwmon_unlistable_tolerated c6cfg [] false _ (by decide)).2.2⟩

/-- C7: in the scrape loop a descriptor whose read fails or whose content is
non-numeric is skipped alone — the loop yields exactly the gauge set it would
yield with that descriptor removed, all other descriptors still processed —
and a descriptor whose read and parse succeed publishes under its key the
parsed value multiplied by its scale factor (stated for a key all of whose
settings in the scrape agree on that value, since a later setting with the
same key would otherwise overwrite it). -/
theorem C7_descriptor_fault_isolated :
    (∀ (fs : FS) (m0 : GaugeSet) (l1 l2 : List sensorReading) (d : sensorReading),
      (readFirstLine fs d.path = none ∨
        (∃ raw, readFirstLine fs d.path = some raw ∧ parseDecimal? (trimSpace raw) = none)) →
      (l1 ++ d :: l2).foldl (processDescriptor fs) m0 =
        (l1 ++ l2).foldl (processDescriptor fs) m0)
    ∧ (∀ (c : CollectorCfg) (prev : GaugeSet) (warned : Bool) (inp : CollectInput)
        (d : sensorReading) (raw : String) (v : ℚ),
        d ∈ discoveredDescriptors c inp.fs →
        readFirstLine inp.fs d.path = some raw →
        parseDecimal? (trimSpace raw) = some v →
        (∀ q ∈ scrapeSettings c inp, q.1 = (d.chip, d.name, d.label) → q.2 = v * d.factor) →
        lookupKey (Collect c prev warned inp).gauges (d.chip, d.name, d.label) =
          some (v * d.factor)) := by
  constructor
  · intro fs m0 l1 l2 d hfail
    have hid : ∀ m, processDescriptor fs m d = m := by
      intro m
      rcases hfail with h | ⟨raw, h1, h2⟩
      · simp [processDescriptor, h]
      · simp [processDescriptor, h1, h2]
    simp [List.foldl_append, hid]
  · intro c prev warned inp d raw v hmem hread hparse hall
    rw [Collect_gauges, lookupKey_applyAll]
    have hd : ((d.chip, d.name, d.label), v * d.factor) ∈ scrapeSettings c inp := by
      unfold scrapeSettings
      apply List.mem_append_left
      apply List.mem_flatMap.mpr
      exact ⟨d, hmem, by simp [descContribution, hread, hparse]⟩
    have hlast : lastVal (scrapeSettings c inp) (d.chip, d.name, d.label) =
        some (v * d.factor) := by
      apply lastVal_of_all
      · exact ⟨_, hd, rfl⟩
      · exact hall
    rw [hlast]

theorem C7_witness :
    (([] : List sensorReading) ++
        mkHwmonSensor twoInputsFS "hw/hwmon0" "hwmon0" "temp9_input" :: []).foldl
        (processDescriptor twoInputsFS) [] =
      (([] : List sensorReading) ++ []).foldl (processDescriptor twoInputsFS) []
    ∧ lookupKey (Collect hwOnlyCfg [] false
        { fs := c7fs, cli := none, elapsedNanos := 0 }).gauges
        ("hwmon0", "hwmon0", "") = some (((39625 : ℕ) : ℚ) * (1 / 1000)) :=
  ⟨C7_descriptor_fault_isolated.1 twoInputsFS [] [] []
      (mkHwmonSensor twoInputsFS "hw/hwmon0" "hwmon0" "temp9_input")
      (Or.inl (by decide)),
   C7_descriptor_fault_isolated.2 hwOnlyCfg [] false
      { fs := c7fs, cli := none, elapsedNanos := 0 }
      (mkHwmonSensor c7fs "hw/hwmon0" "hwmon0" "temp1_input") "39625" ((39625 : ℕ) : ℚ)
      (List.Mem.head _) rfl rfl
      (by
        intro q hq hk
        rw [List.mem_singleton.mp hq]
        rfl)⟩

theorem runScrapes_warned_no_log (c : CollectorCfg) :
    ∀ inps : List CollectInput, (runScrapes c true inps).count true = 0 := by
  intro inps
  induction inps with
  | nil => rfl
  | cons inp rest ih =>
    simp [runScrapes, Collect_cliLogged, Collect_warnedAfter, ih]

/-- C9: across a whole sequence of scrapes started with the warned flag clear,
a CLI-backend failure is logged at most once: the log-event trace of
`runScrapes` holds at most one `true`, and when the n-th scrape is the first
one whose enabled CLI invocation fails, that scrape is the one that logs. -/
theorem C9_cli_logged_once (c : CollectorCfg) :
    (∀ inps : List CollectInput, (runScrapes c false inps).count true ≤ 1)
    ∧ (∀ (inps : List CollectInput) (n : ℕ),
        c.enableSensorsCli = true →
        n < inps.length →
        (inps.getD n default).cli = none →
        (∀ m, m < n → (inps.getD m default).cli ≠ none) →
        (runScrapes c false inps).getD n false = true) := by
  constructor
  · intro inps
    induction inps with
    | nil => simp [runScrapes]
    | cons inp rest ih =>
      cases hb : (c.enableSensorsCli && inp.cli.isNone) with
      | true =>
        simp [runScrapes, Collect_cliLogged, Collect_warnedAfter, hb,
          runScrapes_warned_no_log]
      | false =>
        simpa [runScrapes, Collect_cliLogged, Collect_warnedAfter, hb] using ih
  · intro inps
    induction inps with
    | nil =>
      intro n _ hn
      simp at hn
    | cons inp rest ih =>
      intro n henable hn hfail hbefore
      cases n with
      | zero =>
        simp only [List.getD_cons_zero] at hfail
        simp [runScrapes, Collect_cliLogged, henable, hfail]
      | succ n =>
        have h0 : inp.cli ≠ none := by
          have := hbefore 0 (Nat.succ_pos n)
          simpa using this
        have hno : inp.cli.isNone = false := by
          cases hc : inp.cli with
          | none => exact absurd hc h0
          | some root => simp
        have hwarn : (Collect c [] false inp).warnedAfter = false := by
          rw [Collect_warnedAfter, hno]
          simp
        simp only [runScrapes, hwarn, List.getD_cons_succ]
        exact ih n henable (by simpa using hn) (by simpa using hfail)
          (fun m hm => by
            have := hbefore (m + 1) (Nat.succ_lt_succ hm)
            simpa using this)

theorem C9_witness :
    (runScrapes cliOnlyCfg false
        [{ fs := c7fs, cli := none, elapsedNanos := 0 },
         { fs := c7fs, cli := none, elapsedNanos := 0 }]).count true ≤ 1
    ∧ (runScrapes cliOnlyCfg false
        [{ fs := c7fs, cli := none, elapsedNanos := 0 },
         { fs := c7fs, cli := none, elapsedNanos := 0 }]).getD 0 false = true :=
  ⟨(C9_cli_logged_once cliOnlyCfg).1 _,
   (C9_cli_logged_once cliOnlyCfg).2
      [{ fs := c7fs, cli := none, elapsedNanos := 0 },
       { fs := c7fs, cli := none, elapsedNanos := 0 }] 0
      rfl (by decide) rfl (fun m hm => absurd hm (Nat.not_lt_zero m))⟩

/-- C7 counterexample: the claim states that a successfully read descriptor's
published value for its key equals its parsed value times its scale factor —
but when two descriptors of one scrape share a key (two unlabeled inputs under
one chip), the later overwrites the earlier: here `temp1_input` reads 39625
(39.625 after scaling) while the published value for its key is 40000/1000. -/
theorem C7_counterexample :
    readFirstLine twoInputsFS "hw/hwmon0/temp1_input" = some "39625"
    ∧ lookupKey (Collect hwOnlyCfg [] false
        { fs := twoInputsFS, cli := none, elapsedNanos := 0 }).gauges
        ("hwmon0", "hwmon0", "") = some (((40000 : ℕ) : ℚ) * (1 / 1000))
    ∧ ((39625 : ℕ) : ℚ) * (1 / 1000) ≠ ((40000 : ℕ) : ℚ) * (1 / 1000) :=
  ⟨rfl, rfl, by norm_num⟩
